import Mathlib

/-!
Verification of the Hijack! Chess coordination server (src/server.js).

The server keeps three pieces of mutable state relevant to the room /
matchmaking / relay core:

* `rooms` — a `Map` from room id to a room record
  `{ players, white, black, timeControl }`;
* `matchmakingQueue` — an array of `{ socketId, timeControl, ignoreTime }`;
* the transport layer's channel membership (Socket.IO rooms): which socket
  has `join`ed which channel name.  `socket.to(ch).emit(ev)` delivers `ev`
  to every member of channel `ch` except the sender; `io.to(ch).emit(ev)`
  delivers to every member including none excluded.

We embed each connection-event handler as a function from server state (plus
the handler's inputs) to a new state together with the list of delivered
messages `(recipient socket id, event)`.  The room id produced by
`crypto.randomBytes(3).toString('hex').toUpperCase()` in the `findMatch`
handler is nondeterministic, so it is passed in as an explicit oracle
argument `genRoomId`.
-/

/-- A room record, as stored in the server's `rooms` map. -/
structure Room where
  players : List String
  white : String
  black : Option String
  timeControl : Option String
  deriving DecidableEq

/-- An entry of `matchmakingQueue`. -/
structure QueueEntry where
  socketId : String
  timeControl : String
  ignoreTime : Bool
  deriving DecidableEq

/-- The coordinator's mutable state: the `rooms` map (as an association list
in insertion order), the matchmaking queue, and transport channel
membership pairs `(channelName, socketId)`. -/
structure ServerState where
  rooms : List (String × Room)
  queue : List QueueEntry
  channels : List (String × String)
  deriving DecidableEq

/-- Outbound events emitted by the server handlers. -/
inductive Event where
  | roomCreated (roomId : String)
  | errorMsg (message : String)
  | roomJoined (roomId : String)
  | timeControlSync (timeControl : String)
  | opponentJoined
  | opponentMove (src dst moveType whiteTime blackTime timestamp : String)
  | gameOverEv (reason : String)
  | rematchRequestEv
  | rematchAccepted
  | rematchDeclined
  | matchFound (roomId color timeControl : String)
  | searching
  | opponentDisconnected
  deriving DecidableEq

/-- `Map.has` on the rooms association list. -/
def mapHas (m : List (String × Room)) (k : String) : Bool :=
  m.any (fun p => p.1 == k)

/-- `Map.get` on the rooms association list. -/
def mapGet (m : List (String × Room)) (k : String) : Option Room :=
  (m.find? (fun p => p.1 == k)).map (fun p => p.2)

/-- `Map.set`: JS `Map.set` overwrites the value in place if the key is
present and appends a new binding otherwise. -/
def mapSet (m : List (String × Room)) (k : String) (v : Room) :
    List (String × Room) :=
  if mapHas m k then m.map (fun p => if p.1 == k then (k, v) else p)
  else m ++ [(k, v)]

/-- `Map.delete` on the rooms association list. -/
def mapDelete (m : List (String × Room)) (k : String) :
    List (String × Room) :=
  m.filter (fun p => p.1 != k)

/-- `socket.join(ch)`: channel membership is a set, so joining twice is a
no-op. -/
def chanAdd (cs : List (String × String)) (ch sid : String) :
    List (String × String) :=
  if (ch, sid) ∈ cs then cs else cs ++ [(ch, sid)]

/-- The members of a transport channel. -/
def chanMembers (cs : List (String × String)) (ch : String) : List String :=
  (cs.filter (fun p => p.1 == ch)).map (fun p => p.2)

/-- `socket.leave(ch)`. -/
def chanRemove (cs : List (String × String)) (ch sid : String) :
    List (String × String) :=
  cs.filter (fun p => !(p.1 == ch && p.2 == sid))

/-- `socket.to(ch).emit(ev)`: deliver `ev` to every member of channel `ch`
except the sender. -/
def toChannel (cs : List (String × String)) (ch sender : String)
    (ev : Event) : List (String × Event) :=
  ((chanMembers cs ch).filter (fun r => r != sender)).map (fun r => (r, ev))

/-- `io.to(ch).emit(ev)`: deliver `ev` to every member of channel `ch`. -/
def allToChannel (cs : List (String × String)) (ch : String)
    (ev : Event) : List (String × Event) :=
  (chanMembers cs ch).map (fun r => (r, ev))

/-- Handler for the `createRoom` signal (server.js lines 218-237). -/
def handleCreateRoom (st : ServerState) (sid roomId : String) :
    ServerState × List (String × Event) :=
  if mapHas st.rooms roomId then
    (st, [(sid, Event.errorMsg "Room already exists")])
  else
    ({ st with
        rooms := mapSet st.rooms roomId
          ({ players := [sid], white := sid, black := none,
             timeControl := none }),
        channels := chanAdd st.channels roomId sid },
     [(sid, Event.roomCreated roomId)])

/-- Handler for the `joinRoom` signal (server.js lines 239-270). -/
def handleJoinRoom (st : ServerState) (sid roomId : String) :
    ServerState × List (String × Event) :=
  match mapGet st.rooms roomId with
  | none => (st, [(sid, Event.errorMsg "Room does not exist")])
  | some room =>
    if room.players.length ≥ 2 then
      (st, [(sid, Event.errorMsg "Room is full")])
    else
      let room' : Room :=
        { room with players := room.players ++ [sid], black := some sid }
      let st' : ServerState :=
        { st with rooms := mapSet st.rooms roomId room',
                  channels := chanAdd st.channels roomId sid }
      let tcMsgs : List (String × Event) :=
        match room.timeControl with
        | some tc => [(sid, Event.timeControlSync tc)]
        | none => []
      (st', [(sid, Event.roomJoined roomId)] ++ tcMsgs ++
        toChannel st'.channels roomId sid Event.opponentJoined)

/-- Handler for the `move` signal (server.js lines 272-285): pure relay,
no occupancy check, no state change. -/
def handleMove (st : ServerState)
    (sid roomId src dst moveType whiteTime blackTime timestamp : String) :
    ServerState × List (String × Event) :=
  (st, toChannel st.channels roomId sid
    (Event.opponentMove src dst moveType whiteTime blackTime timestamp))

/-- Handler for the `gameOver` signal (server.js lines 287-293). -/
def handleGameOver (st : ServerState) (sid roomId reason : String) :
    ServerState × List (String × Event) :=
  (st, toChannel st.channels roomId sid (Event.gameOverEv reason))

/-- Handler for the `timeControlSet` signal (server.js lines 295-301). -/
def handleTimeControlSet (st : ServerState) (roomId tc : String) :
    ServerState × List (String × Event) :=
  match mapGet st.rooms roomId with
  | some room =>
    let rooms' := mapSet st.rooms roomId ({ room with timeControl := some tc })
    ({ st with rooms := rooms' }, [])
  | none => (st, [])

/-- Handler for the `rematchRequest` signal (server.js lines 303-307). -/
def handleRematchRequest (st : ServerState) (sid roomId : String) :
    ServerState × List (String × Event) :=
  (st, toChannel st.channels roomId sid Event.rematchRequestEv)

/-- Handler for the `rematchAccept` signal (server.js lines 309-313). -/
def handleRematchAccept (st : ServerState) (sid roomId : String) :
    ServerState × List (String × Event) :=
  (st, toChannel st.channels roomId sid Event.rematchAccepted)

/-- Handler for the `rematchDecline` signal (server.js lines 315-319). -/
def handleRematchDecline (st : ServerState) (sid roomId : String) :
    ServerState × List (String × Event) :=
  (st, toChannel st.channels roomId sid Event.rematchDeclined)

/-- The matchmaking compatibility test of the `findMatch` scan
(server.js lines 334-337): same time control, or either side ignores. -/
def isCompatible (waiting : QueueEntry) (timeControl : String)
    (ignoreTime : Bool) : Bool :=
  waiting.timeControl == timeControl || waiting.ignoreTime || ignoreTime

/-- Time-control resolution on a successful match
(server.js lines 352-364). -/
def resolveTimeControl (opponent : QueueEntry) (timeControl : String)
    (ignoreTime : Bool) : String :=
  if opponent.timeControl == timeControl then timeControl
  else if !opponent.ignoreTime && ignoreTime then opponent.timeControl
  else if opponent.ignoreTime && !ignoreTime then timeControl
  else opponent.timeControl

/-- Handler for the `findMatch` signal (server.js lines 321-392).
`genRoomId` is the value produced by `crypto.randomBytes(3)` — an oracle
input, since the generator is random and does not consult server state. -/
def handleFindMatch (st : ServerState) (sid timeControl : String)
    (ignoreTime : Bool) (genRoomId : String) :
    ServerState × List (String × Event) :=
  match st.queue.find? (fun w => isCompatible w timeControl ignoreTime) with
  | some opponent =>
    let queue' :=
      st.queue.eraseP (fun w => isCompatible w timeControl ignoreTime)
    let finalTC := resolveTimeControl opponent timeControl ignoreTime
    let room : Room :=
      { players := [opponent.socketId, sid], white := opponent.socketId,
        black := some sid, timeControl := some finalTC }
    ({ st with
        queue := queue',
        rooms := mapSet st.rooms genRoomId room,
        channels := chanAdd (chanAdd st.channels genRoomId opponent.socketId)
          genRoomId sid },
     [(opponent.socketId, Event.matchFound genRoomId "white" finalTC),
      (sid, Event.matchFound genRoomId "black" finalTC)])
  | none =>
    ({ st with queue := st.queue ++
        [{ socketId := sid, timeControl := timeControl,
           ignoreTime := ignoreTime }] },
     [(sid, Event.searching)])

/-- Handler for the `cancelMatchmaking` signal (server.js lines 394-401):
`findIndex` + `splice(i, 1)` removes the first entry for the sender, and is
a no-op when none exists. -/
def handleCancelMatchmaking (st : ServerState) (sid : String) :
    ServerState × List (String × Event) :=
  ({ st with queue := st.queue.eraseP (fun p => p.socketId == sid) }, [])

/-- Handler for the `leaveRoom` signal (server.js lines 403-421). -/
def handleLeaveRoom (st : ServerState) (sid roomId : String) :
    ServerState × List (String × Event) :=
  let result :=
    match mapGet st.rooms roomId with
    | some room =>
      let players' := room.players.filter (fun id => id != sid)
      if players'.length == 0 then
        (mapDelete st.rooms roomId, ([] : List (String × Event)))
      else
        (mapSet st.rooms roomId ({ room with players := players' }),
         toChannel st.channels roomId sid Event.opponentDisconnected)
    | none => (st.rooms, [])
  ({ st with rooms := result.1,
             channels := chanRemove st.channels roomId sid }, result.2)

/-- The `rooms.forEach` cleanup of the `disconnect` handler
(server.js lines 444-456), traversing the map in insertion order.
`cs` is the channel membership at notification time (the transport has
already removed the disconnecting socket from all channels). -/
def disconnectRooms (sid : String) (cs : List (String × String)) :
    List (String × Room) → List (String × Room) × List (String × Event)
  | [] => ([], [])
  | (rid, room) :: rest =>
    let tail := disconnectRooms sid cs rest
    if sid ∈ room.players then
      let players' := room.players.filter (fun id => id != sid)
      if players'.length == 0 then tail
      else ((rid, { room with players := players' }) :: tail.1,
            allToChannel cs rid Event.opponentDisconnected ++ tail.2)
    else ((rid, room) :: tail.1, tail.2)

/-- Handler for transport disconnect (server.js lines 423-457).  The
transport removes the socket from all channels before the handler runs;
the handler then removes the (first) queue entry for the socket and runs
the room cleanup. -/
def handleDisconnect (st : ServerState) (sid : String) :
    ServerState × List (String × Event) :=
  let channels' := st.channels.filter (fun p => p.2 != sid)
  let queue' := st.queue.eraseP (fun p => p.socketId == sid)
  let cleaned := disconnectRooms sid channels' st.rooms
  ({ rooms := cleaned.1, queue := queue', channels := channels' },
   cleaned.2)

/-- The signals that touch the matchmaking queue. -/
inductive MMAction where
  | findMatchA (sid timeControl : String) (ignoreTime : Bool)
      (genRoomId : String)
  | cancelA (sid : String)
  | disconnectA (sid : String)
  deriving DecidableEq

/-- One step of the queue-touching signals. -/
def stepAction (st : ServerState) (a : MMAction) : ServerState :=
  match a with
  | MMAction.findMatchA sid tc ig rid => (handleFindMatch st sid tc ig rid).1
  | MMAction.cancelA sid => (handleCancelMatchmaking st sid).1
  | MMAction.disconnectA sid => (handleDisconnect st sid).1

/-- Run a sequence of queue-touching signals. -/
def runActions (st : ServerState) (acts : List MMAction) : ServerState :=
  acts.foldl stepAction st

/-- No two queue entries share a connection id. -/
def queueNoDup (st : ServerState) : Prop :=
  (st.queue.map (fun e => e.socketId)).Nodup

/-- Room ids are pairwise distinct among live rooms. -/
def roomsNodup (st : ServerState) : Prop :=
  (st.rooms.map (fun p => p.1)).Nodup

/-- The empty initial state (fresh server). -/
def initState : ServerState := { rooms := [], queue := [], channels := [] }

/-- Time-control resolution written from the spec's four ordered rules
(spec §4.2): (1) same value → that value; (2) waiting entry did not set
ignoreTime but the requester did → waiting entry's value; (3) waiting entry
set ignoreTime but the requester did not → requester's value; (4) else →
waiting entry's value.  To be compared with `resolveTimeControl`. -/
def specResolveTimeControl (waiting : QueueEntry) (timeControl : String)
    (ignoreTime : Bool) : String :=
  if waiting.timeControl = timeControl then timeControl
  else if waiting.ignoreTime = false ∧ ignoreTime = true then
    waiting.timeControl
  else if waiting.ignoreTime = true ∧ ignoreTime = false then timeControl
  else waiting.timeControl

/-- A queue-touching signal is admissible when a connection does not issue
`findMatch` while it already holds a queue entry. -/
def okAction (st : ServerState) (a : MMAction) : Prop :=
  match a with
  | MMAction.findMatchA sid _ _ _ => ∀ e ∈ st.queue, e.socketId ≠ sid
  | MMAction.cancelA _ => True
  | MMAction.disconnectA _ => True

/-- A run of queue-touching signals in which every step is admissible. -/
inductive GoodRun : ServerState → List MMAction → ServerState → Prop where
  | nil (st : ServerState) : GoodRun st [] st
  | cons (st : ServerState) (a : MMAction) (acts : List MMAction)
      (st' : ServerState) :
      okAction st a → GoodRun (stepAction st a) acts st' →
      GoodRun st (a :: acts) st'

/-- A two-occupant room used by concrete test states. -/
def roomAB : Room :=
  { players := ["A", "B"], white := "A", black := some "B",
    timeControl := none }

/-- State with an active room "ABC123" occupied by A and B, both members of
its transport channel; the connection "C" is entirely unknown to it. -/
def stRelay : ServerState :=
  { rooms := [("ABC123", roomAB)],
    queue := [],
    channels := [("ABC123", "A"), ("ABC123", "B")] }

/-- A room occupied by X and Y, used by the id-collision state. -/
def roomXY : Room :=
  { players := ["X", "Y"], white := "X", black := some "Y",
    timeControl := none }

/-- State with a live room whose id "AB12CD" will collide with the id the
matchmaker generates, and one waiting queue entry. -/
def stCollide : ServerState :=
  { rooms := [("AB12CD", roomXY)],
    queue := [{ socketId := "W", timeControl := "5+0", ignoreTime := false }],
    channels := [("AB12CD", "X"), ("AB12CD", "Y")] }

/-- State in which connection "C" already waits in the queue behind an
ignore-all entry of "A". -/
def stSelf : ServerState :=
  { rooms := [],
    queue := [{ socketId := "A", timeControl := "9+9", ignoreTime := true },
              { socketId := "C", timeControl := "5+0", ignoreTime := false }],
    channels := [] }

/-- State with room "R" occupied by P1 and P2, both on its channel. -/
def stLeave : ServerState :=
  { rooms := [("R", { players := ["P1", "P2"], white := "P1",
                      black := some "P2", timeControl := none })],
    queue := [],
    channels := [("R", "P1"), ("R", "P2")] }

/-- State with a full room "R" (occupants A and B). -/
def stJoin : ServerState :=
  { rooms := [("R", roomAB)],
    queue := [],
    channels := [("R", "A"), ("R", "B")] }

/-- State where only "D" waits in the queue and only "D" occupies a room;
connection "C" holds no state at all. -/
def stClean : ServerState :=
  { rooms := [("R", { players := ["D"], white := "D", black := none,
                      timeControl := none })],
    queue := [{ socketId := "D", timeControl := "3+0", ignoreTime := false }],
    channels := [("R", "D")] }

/-- State with one waiting entry of "A" at 3+0, for scan witnesses. -/
def stScan : ServerState :=
  { rooms := [],
    queue := [{ socketId := "A", timeControl := "3+0", ignoreTime := false }],
    channels := [] }

/-- State in which only "C" waits in the queue. -/
def stSolo : ServerState :=
  { rooms := [],
    queue := [{ socketId := "C", timeControl := "5+0", ignoreTime := false }],
    channels := [] }

/-- State with a single waiting entry of "A" that ignores time. -/
def stTie : ServerState :=
  { rooms := [],
    queue := [{ socketId := "A", timeControl := "1+0", ignoreTime := true }],
    channels := [] }

/-! ### Helper lemmas about the map and channel operations -/

theorem mapSet_find_self (m : List (String × Room)) (k : String) (v : Room) :
    (mapSet m k v).find? (fun p => p.1 == k) = some (k, v) := by
  induction m with
  | nil => simp [mapSet, mapHas]
  | cons a m ih =>
    have hcons : mapHas (a :: m) k = (a.1 == k || mapHas m k) := rfl
    cases hb : (a.1 == k) with
    | true =>
      have hak : a.1 = k := eq_of_beq hb
      have h1 : mapHas (a :: m) k = true := by rw [hcons, hb]; rfl
      have h2 : mapSet (a :: m) k v =
          (k, v) :: m.map (fun p => if p.1 == k then (k, v) else p) := by
        simp [mapSet, h1, hak]
      rw [h2, List.find?_cons_of_pos _ (by simp)]
    | false =>
      cases hm : mapHas m k with
      | true =>
        have hak : a.1 ≠ k := by simpa using hb
        have h1 : mapHas (a :: m) k = true := by rw [hcons, hb, hm]; rfl
        have h2 : mapSet (a :: m) k v =
            a :: m.map (fun p => if p.1 == k then (k, v) else p) := by
          simp [mapSet, h1, hak]
        have h3 : mapSet m k v =
            m.map (fun p => if p.1 == k then (k, v) else p) := by
          simp [mapSet, hm]
        rw [h2, List.find?_cons_of_neg _ (by simp [hb]), ← h3]
        exact ih
      | false =>
        have h1 : mapHas (a :: m) k = false := by rw [hcons, hb, hm]; rfl
        have h2 : mapSet (a :: m) k v = a :: (m ++ [(k, v)]) := by
          simp [mapSet, h1]
        have h3 : mapSet m k v = m ++ [(k, v)] := by simp [mapSet, hm]
        rw [h2, List.find?_cons_of_neg _ (by simp [hb]), ← h3]
        exact ih

theorem mapGet_mapSet_self (m : List (String × Room)) (k : String)
    (v : Room) : mapGet (mapSet m k v) k = some v := by
  unfold mapGet
  rw [mapSet_find_self]
  rfl

theorem find_key_map_replace (m : List (String × Room)) (k k' : String)
    (v : Room) (hne : k' ≠ k) :
    (m.map (fun p => if p.1 == k then (k, v) else p)).find?
        (fun p => p.1 == k') =
      m.find? (fun p => p.1 == k') := by
  induction m with
  | nil => rfl
  | cons a m ih =>
    by_cases hak : a.1 = k
    · have hhead : (if a.1 == k then (k, v) else a) = (k, v) := by
        simp [hak]
      have hk' : ((k, v).1 == k') = false := by
        simp [hne.symm]
      have hak' : (a.1 == k') = false := by
        simp [hak, hne.symm]
      rw [List.map_cons, hhead,
        List.find?_cons_of_neg _ (by simp [hk', hne.symm]),
        List.find?_cons_of_neg _ (by simp [hak, hne.symm]), ih]
    · have hhead : (if a.1 == k then (k, v) else a) = a := by
        simp [hak]
      rw [List.map_cons, hhead]
      by_cases hk' : a.1 = k'
      · rw [List.find?_cons_of_pos _ (by simp [hk']),
          List.find?_cons_of_pos _ (by simp [hk'])]
      · rw [List.find?_cons_of_neg _ (by simp [hk']),
          List.find?_cons_of_neg _ (by simp [hk']), ih]

theorem mapGet_mapSet_ne (m : List (String × Room)) (k k' : String)
    (v : Room) (hne : k' ≠ k) :
    mapGet (mapSet m k v) k' = mapGet m k' := by
  unfold mapGet mapSet
  cases hm : mapHas m k with
  | true =>
    simp only [if_true]
    rw [find_key_map_replace m k k' v hne]
  | false =>
    simp only [Bool.false_eq_true, if_false]
    rw [List.find?_append]
    have hsing : ([(k, v)].find? (fun p => p.1 == k')) = none := by
      simp [hne.symm]
    rw [hsing, Option.or_none]

theorem mapHas_mapSet_self (m : List (String × Room)) (k : String)
    (v : Room) : mapHas (mapSet m k v) k = true := by
  have hmem : (k, v) ∈ mapSet m k v :=
    List.mem_of_find?_eq_some (mapSet_find_self m k v)
  simp only [mapHas, List.any_eq_true]
  exact ⟨(k, v), hmem, by simp⟩

theorem mapGet_mapDelete_self (m : List (String × Room)) (k : String) :
    mapGet (mapDelete m k) k = none := by
  unfold mapGet mapDelete
  have : (m.filter (fun p => p.1 != k)).find? (fun p => p.1 == k) = none := by
    rw [List.find?_eq_none]
    intro p hp
    have := (List.mem_filter.mp hp).2
    simpa using this
  rw [this]
  rfl

theorem mapHas_false_not_mem (m : List (String × Room)) (k : String)
    (h : mapHas m k = false) : k ∉ m.map (fun p => p.1) := by
  intro hmem
  rcases List.mem_map.mp hmem with ⟨p, hp, hpk⟩
  have : mapHas m k = true := by
    simp only [mapHas, List.any_eq_true]
    exact ⟨p, hp, by simp [hpk]⟩
  rw [h] at this
  exact Bool.false_ne_true this

theorem mapSet_keys_fresh (m : List (String × Room)) (k : String) (v : Room)
    (h : mapHas m k = false) :
    (mapSet m k v).map (fun p => p.1) = m.map (fun p => p.1) ++ [k] := by
  simp [mapSet, h]

theorem mapSet_keys_live (m : List (String × Room)) (k : String) (v : Room)
    (h : mapHas m k = true) :
    (mapSet m k v).map (fun p => p.1) = m.map (fun p => p.1) := by
  simp only [mapSet, h, if_true]
  rw [List.map_map]
  apply List.map_congr_left
  intro p hp
  by_cases hpk : p.1 = k
  · simp [hpk]
  · simp [hpk]

theorem mem_toChannel (cs : List (String × String)) (ch sender r : String)
    (ev : Event) (hmem : (ch, r) ∈ cs) (hne : r ≠ sender) :
    (r, ev) ∈ toChannel cs ch sender ev := by
  unfold toChannel chanMembers
  apply List.mem_map.mpr
  refine ⟨r, ?_, rfl⟩
  apply List.mem_filter.mpr
  refine ⟨?_, by simp [hne]⟩
  apply List.mem_map.mpr
  exact ⟨(ch, r), List.mem_filter.mpr ⟨hmem, by simp⟩, rfl⟩

theorem not_mem_filter_ne_self (l : List String) (sid : String) :
    sid ∉ l.filter (fun id => id != sid) := by
  intro hmem
  have := (List.mem_filter.mp hmem).2
  simp at this

theorem find_first_compat (l₁ l₂ : List QueueEntry) (w : QueueEntry)
    (tc : String) (ig : Bool)
    (h₁ : ∀ e ∈ l₁, isCompatible e tc ig = false)
    (hw : isCompatible w tc ig = true) :
    (l₁ ++ w :: l₂).find? (fun e => isCompatible e tc ig) = some w := by
  rw [List.find?_append]
  have hnone : l₁.find? (fun e => isCompatible e tc ig) = none := by
    rw [List.find?_eq_none]
    intro e he
    simp [h₁ e he]
  rw [hnone, @List.find?_cons_of_pos _ (fun e => isCompatible e tc ig) w l₂ hw]
  rfl

theorem eraseP_first_compat (l₁ l₂ : List QueueEntry) (w : QueueEntry)
    (tc : String) (ig : Bool)
    (h₁ : ∀ e ∈ l₁, isCompatible e tc ig = false)
    (hw : isCompatible w tc ig = true) :
    (l₁ ++ w :: l₂).eraseP (fun e => isCompatible e tc ig) = l₁ ++ l₂ := by
  rw [List.eraseP_append_right _ (fun b hb => by simp [h₁ b hb]),
    @List.eraseP_cons_of_pos _ w l₂ (fun e => isCompatible e tc ig) hw]

theorem nodup_map_eraseP (l : List QueueEntry) (p : QueueEntry → Bool)
    (h : (l.map (fun e => e.socketId)).Nodup) :
    ((l.eraseP p).map (fun e => e.socketId)).Nodup :=
  List.Nodup.sublist ((l.eraseP_sublist).map (fun e => e.socketId)) h

theorem disconnectRooms_not_mem (sid : String)
    (cs : List (String × String)) (rooms : List (String × Room)) :
    ∀ p ∈ (disconnectRooms sid cs rooms).1, sid ∉ p.2.players := by
  induction rooms with
  | nil => intro p hp; simp [disconnectRooms] at hp
  | cons a rooms ih =>
    intro p hp
    by_cases hmem : sid ∈ a.2.players
    · by_cases hemp :
        ((a.2.players.filter (fun id => id != sid)).length == 0) = true
      · rw [show disconnectRooms sid cs (a :: rooms) =
            disconnectRooms sid cs rooms by
          cases a with
          | mk rid room => simp [disconnectRooms, hmem, hemp]] at hp
        exact ih p hp
      · cases a with
        | mk rid room =>
          have hstep : (disconnectRooms sid cs ((rid, room) :: rooms)).1 =
              (rid, { room with
                players := room.players.filter (fun id => id != sid) }) ::
                (disconnectRooms sid cs rooms).1 := by
            simp only [disconnectRooms, hmem, if_true]
            rw [if_neg (by simpa using hemp)]
          rw [hstep] at hp
          rcases List.mem_cons.mp hp with heq | htail
          · rw [heq]
            exact not_mem_filter_ne_self room.players sid
          · exact ih p htail
    · cases a with
      | mk rid room =>
        have hstep : (disconnectRooms sid cs ((rid, room) :: rooms)).1 =
            (rid, room) :: (disconnectRooms sid cs rooms).1 := by
          simp [disconnectRooms, hmem]
        rw [hstep] at hp
        rcases List.mem_cons.mp hp with heq | htail
        · rw [heq]
          exact hmem
        · exact ih p htail

theorem disconnectRooms_absent (sid : String)
    (cs : List (String × String)) (rooms : List (String × Room))
    (h : ∀ p ∈ rooms, sid ∉ p.2.players) :
    disconnectRooms sid cs rooms = (rooms, []) := by
  induction rooms with
  | nil => rfl
  | cons a rooms ih =>
    cases a with
    | mk rid room =>
      have hmem : sid ∉ room.players := h (rid, room) (List.mem_cons_self _ _)
      have htail : disconnectRooms sid cs rooms = (rooms, []) :=
        ih (fun p hp => h p (List.mem_cons_of_mem _ hp))
      simp [disconnectRooms, hmem, htail]

/-! ### Claim theorems -/

/-- Claim C8: calling `createRoom` a second time with the same id while the
room is live fails with RoomAlreadyExists ("Room already exists") reported
only to the caller, and the whole server state — in particular the existing
room's occupant list, role assignment and time control — is unchanged by
the failed call. -/
theorem createRoom_duplicate (st : ServerState) (sid sid₂ roomId : String) :
    handleCreateRoom (handleCreateRoom st sid roomId).1 sid₂ roomId =
      ((handleCreateRoom st sid roomId).1,
       [(sid₂, Event.errorMsg "Room already exists")]) := by
  have hlive : mapHas (handleCreateRoom st sid roomId).1.rooms roomId =
      true := by
    cases h : mapHas st.rooms roomId with
    | true => simp [handleCreateRoom, h]
    | false => simp [handleCreateRoom, h, mapHas_mapSet_self]
  generalize hX : (handleCreateRoom st sid roomId).1 = X at hlive ⊢
  simp [handleCreateRoom, hlive]

/-- Claim C7: `joinRoom` fails with a room-not-found error when no room
with the given id exists, and with a room-full error when the room already
holds two occupants; in the full case the state (hence the occupant list)
is unchanged, so a third connection is never added. -/
theorem joinRoom_errors (st : ServerState) (sid roomId : String) :
    (mapGet st.rooms roomId = none →
      handleJoinRoom st sid roomId =
        (st, [(sid, Event.errorMsg "Room does not exist")])) ∧
    (∀ room, mapGet st.rooms roomId = some room → room.players.length = 2 →
      handleJoinRoom st sid roomId =
        (st, [(sid, Event.errorMsg "Room is full")])) := by
  constructor
  · intro h
    unfold handleJoinRoom
    rw [h]
  · intro room h hlen
    unfold handleJoinRoom
    rw [h]
    simp [hlen]

theorem joinRoom_errors_witness :
    handleJoinRoom stJoin "C" "R" =
      (stJoin, [("C", Event.errorMsg "Room is full")]) ∧
    handleJoinRoom stJoin "C" "Q" =
      (stJoin, [("C", Event.errorMsg "Room does not exist")]) :=
  ⟨(joinRoom_errors stJoin "C" "R").2 roomAB (by decide) (by decide),
   (joinRoom_errors stJoin "C" "Q").1 (by decide)⟩

/-- Claim C2: when `findMatch` selects a compatible waiting entry, the
resolved time control follows exactly the spec's four ordered rules
(`specResolveTimeControl`): the code's resolution agrees with the spec's,
and both the notifications and the created room carry that value. -/
theorem findMatch_time_resolution (st : ServerState) (sid tc rid : String)
    (ig : Bool) (w : QueueEntry)
    (hfind : st.queue.find? (fun e => isCompatible e tc ig) = some w) :
    resolveTimeControl w tc ig = specResolveTimeControl w tc ig ∧
    (handleFindMatch st sid tc ig rid).2 =
      [(w.socketId,
        Event.matchFound rid "white" (specResolveTimeControl w tc ig)),
       (sid,
        Event.matchFound rid "black" (specResolveTimeControl w tc ig))] ∧
    mapGet (handleFindMatch st sid tc ig rid).1.rooms rid =
      some ({ players := [w.socketId, sid], white := w.socketId,
              black := some sid,
              timeControl := some (specResolveTimeControl w tc ig) }) := by
  have hres : resolveTimeControl w tc ig = specResolveTimeControl w tc ig := by
    by_cases h : w.timeControl = tc <;> cases hw : w.ignoreTime <;>
      cases ig <;>
      simp [resolveTimeControl, specResolveTimeControl, h, hw]
  refine ⟨hres, ?_, ?_⟩
  · unfold handleFindMatch
    rw [hfind]
    simp [hres]
  · unfold handleFindMatch
    rw [hfind]
    simp [hres, mapGet_mapSet_self]

theorem findMatch_time_resolution_witness :
    (handleFindMatch stTie "B" "15+10" true "RM").2 =
      [("A", Event.matchFound "RM" "white" "1+0"),
       ("B", Event.matchFound "RM" "black" "1+0")] :=
  ((findMatch_time_resolution stTie "B" "15+10" "RM" true
      ({ socketId := "A", timeControl := "1+0", ignoreTime := true })
      (by decide)).2.1).trans (by decide)

/-- Claim C3: `findMatch` scans the queue front-to-back and selects the
first entry satisfying the compatibility predicate (earliest-enqueued
compatible entry wins); if no entry qualifies, a new entry for the
requester is appended to the back of the queue and the requester receives
`searching`. -/
theorem findMatch_first_fit (st : ServerState) (sid tc rid : String)
    (ig : Bool) :
    (∀ l₁ w l₂, st.queue = l₁ ++ w :: l₂ →
      (∀ e ∈ l₁, isCompatible e tc ig = false) →
      isCompatible w tc ig = true →
      (handleFindMatch st sid tc ig rid).1.queue = l₁ ++ l₂ ∧
      (handleFindMatch st sid tc ig rid).2 =
        [(w.socketId,
          Event.matchFound rid "white" (resolveTimeControl w tc ig)),
         (sid,
          Event.matchFound rid "black" (resolveTimeControl w tc ig))]) ∧
    ((∀ e ∈ st.queue, isCompatible e tc ig = false) →
      (handleFindMatch st sid tc ig rid).1.queue =
        st.queue ++
          [{ socketId := sid, timeControl := tc, ignoreTime := ig }] ∧
      (handleFindMatch st sid tc ig rid).2 = [(sid, Event.searching)]) := by
  constructor
  · intro l₁ w l₂ hq h₁ hw
    have hfind : st.queue.find? (fun e => isCompatible e tc ig) = some w := by
      rw [hq]
      exact find_first_compat l₁ l₂ w tc ig h₁ hw
    have herase :
        st.queue.eraseP (fun e => isCompatible e tc ig) = l₁ ++ l₂ := by
      rw [hq]
      exact eraseP_first_compat l₁ l₂ w tc ig h₁ hw
    unfold handleFindMatch
    rw [hfind]
    simp [herase]
  · intro hall
    have hfind : st.queue.find? (fun e => isCompatible e tc ig) = none := by
      rw [List.find?_eq_none]
      intro e he
      simp [hall e he]
    unfold handleFindMatch
    rw [hfind]
    simp

theorem findMatch_first_fit_witness :
    ((handleFindMatch stScan "B" "3+0" false "RH").1.queue = [] ∧
     (handleFindMatch stScan "B" "3+0" false "RH").2 =
       [("A", Event.matchFound "RH" "white" "3+0"),
        ("B", Event.matchFound "RH" "black" "3+0")]) ∧
    ((handleFindMatch stScan "B" "10+0" false "RH").1.queue =
       [{ socketId := "A", timeControl := "3+0", ignoreTime := false },
        { socketId := "B", timeControl := "10+0", ignoreTime := false }] ∧
     (handleFindMatch stScan "B" "10+0" false "RH").2 =
       [("B", Event.searching)]) := by
  constructor
  · have h := (findMatch_first_fit stScan "B" "3+0" "RH" false).1 []
      ({ socketId := "A", timeControl := "3+0", ignoreTime := false }) []
      (by decide) (by decide) (by decide)
    exact ⟨h.1, h.2.trans (by decide)⟩
  · have h := (findMatch_first_fit stScan "B" "10+0" "RH" false).2
      (by decide)
    exact ⟨h.1.trans (by decide), h.2⟩

/-- Claim C6: for a room and an occupant, `leaveRoom` removes the occupant
from the room's occupant list (the list becomes the old list with every
copy of the leaver filtered out); if the resulting occupant count is 0 the
room is destroyed, and if it is 1 the room still exists and the remaining
occupant — a member of the room's channel — is notified that the opponent
left. -/
theorem leaveRoom_semantics (st : ServerState) (sid roomId : String)
    (room : Room) (hroom : mapGet st.rooms roomId = some room)
    (_hocc : sid ∈ room.players) :
    (∀ room',
      mapGet (handleLeaveRoom st sid roomId).1.rooms roomId = some room' →
      room'.players = room.players.filter (fun id => id != sid) ∧
      sid ∉ room'.players) ∧
    (room.players.filter (fun id => id != sid) = [] →
      mapGet (handleLeaveRoom st sid roomId).1.rooms roomId = none) ∧
    (∀ r, room.players.filter (fun id => id != sid) = [r] →
      mapGet (handleLeaveRoom st sid roomId).1.rooms roomId =
        some ({ room with players := [r] }) ∧
      ((roomId, r) ∈ st.channels →
        (r, Event.opponentDisconnected) ∈
          (handleLeaveRoom st sid roomId).2)) := by
  cases hemp : ((room.players.filter (fun id => id != sid)).length == 0) with
  | true =>
    have hdel : (handleLeaveRoom st sid roomId).1.rooms =
        mapDelete st.rooms roomId := by
      simp [handleLeaveRoom, hroom, hemp]
    have hnone :
        mapGet (handleLeaveRoom st sid roomId).1.rooms roomId = none := by
      rw [hdel]
      exact mapGet_mapDelete_self _ _
    refine ⟨?_, fun _ => hnone, ?_⟩
    · intro room' h'
      rw [hnone] at h'
      exact absurd h' (by simp)
    · intro r hr
      have hlen : (room.players.filter (fun id => id != sid)).length = 0 := by
        simpa using hemp
      rw [hr] at hlen
      simp at hlen
  | false =>
    have hset : (handleLeaveRoom st sid roomId).1.rooms =
        mapSet st.rooms roomId
          ({ room with
             players := room.players.filter (fun id => id != sid) }) := by
      simp [handleLeaveRoom, hroom, hemp]
    have hmsgs : (handleLeaveRoom st sid roomId).2 =
        toChannel st.channels roomId sid Event.opponentDisconnected := by
      simp [handleLeaveRoom, hroom, hemp]
    have hget : mapGet (handleLeaveRoom st sid roomId).1.rooms roomId =
        some ({ room with
                players := room.players.filter (fun id => id != sid) }) := by
      rw [hset]
      exact mapGet_mapSet_self _ _ _
    refine ⟨?_, ?_, ?_⟩
    · intro room' h'
      have heq := Option.some.inj (hget.symm.trans h')
      rw [← heq]
      exact ⟨rfl, not_mem_filter_ne_self room.players sid⟩
    · intro h0
      rw [h0] at hemp
      simp at hemp
    · intro r hr
      constructor
      · rw [hget, hr]
      · intro hchan
        rw [hmsgs]
        have hrmem : r ∈ room.players.filter (fun id => id != sid) := by
          rw [hr]
          exact List.mem_singleton.mpr rfl
        have hrne : r ≠ sid := by
          have := (List.mem_filter.mp hrmem).2
          simpa using this
        exact mem_toChannel st.channels roomId sid r
          Event.opponentDisconnected hchan hrne

theorem leaveRoom_semantics_witness :
    mapGet (handleLeaveRoom stLeave "P1" "R").1.rooms "R" =
      some ({ players := ["P2"], white := "P1", black := some "P2",
              timeControl := none }) ∧
    ("P2", Event.opponentDisconnected) ∈ (handleLeaveRoom stLeave "P1" "R").2 := by
  have h := (leaveRoom_semantics stLeave "P1" "R"
      ({ players := ["P1", "P2"], white := "P1", black := some "P2",
         timeControl := none })
      (by decide) (by decide)).2.2 "P2" (by decide)
  exact ⟨h.1, h.2 (by decide)⟩

/-- Claim C9: disconnect cleanup is idempotent and never errors on
already-absent state.  For a connection with no prior queue entry that
enqueues via `findMatch`, cancels, then disconnects, the final state holds
no queue entry for it and no room occupied by it; and when a connection is
absent from queue, rooms and channels, its disconnect is a complete no-op
that emits nothing. -/
theorem disconnect_cleanup (st : ServerState) (c tc rid : String)
    (ig : Bool) (hq : ∀ e ∈ st.queue, e.socketId ≠ c) :
    ((∀ e ∈ (handleDisconnect
        (handleCancelMatchmaking (handleFindMatch st c tc ig rid).1 c).1
        c).1.queue, e.socketId ≠ c) ∧
     (∀ p ∈ (handleDisconnect
        (handleCancelMatchmaking (handleFindMatch st c tc ig rid).1 c).1
        c).1.rooms, c ∉ p.2.players)) ∧
    ((∀ p ∈ st.rooms, c ∉ p.2.players) → (∀ p ∈ st.channels, p.2 ≠ c) →
      handleDisconnect st c = (st, [])) := by
  constructor
  · set st₁ := (handleFindMatch st c tc ig rid).1 with hst₁
    set st₂ := (handleCancelMatchmaking st₁ c).1 with hst₂
    constructor
    · have hq₂ : ∀ e ∈ st₂.queue, e.socketId ≠ c := by
        have hq₂' : st₂.queue = st₁.queue.eraseP (fun p => p.socketId == c) := by
          simp [hst₂, handleCancelMatchmaking]
        cases hfind : st.queue.find? (fun e => isCompatible e tc ig) with
        | some w =>
          have hq₁' : st₁.queue =
              st.queue.eraseP (fun e => isCompatible e tc ig) := by
            simp [hst₁, handleFindMatch, hfind]
          intro e he
          rw [hq₂'] at he
          have he₁ : e ∈ st₁.queue := (List.eraseP_sublist _).subset he
          rw [hq₁'] at he₁
          exact hq e ((List.eraseP_sublist _).subset he₁)
        | none =>
          have hq₁' : st₁.queue = st.queue ++
              [{ socketId := c, timeControl := tc, ignoreTime := ig }] := by
            simp [hst₁, handleFindMatch, hfind]
          have herase : st₁.queue.eraseP (fun p => p.socketId == c) =
              st.queue := by
            rw [hq₁', List.eraseP_append_right _
              (fun b hb => by simp [hq b hb])]
            simp
          intro e he
          rw [hq₂', herase] at he
          exact hq e he
      intro e he
      have he₂ : e ∈ st₂.queue.eraseP (fun p => p.socketId == c) := by
        have : (handleDisconnect st₂ c).1.queue =
            st₂.queue.eraseP (fun p => p.socketId == c) := by
          simp [handleDisconnect]
        rwa [this] at he
      exact hq₂ e ((List.eraseP_sublist _).subset he₂)
    · intro p hp
      have hrooms : (handleDisconnect st₂ c).1.rooms =
          (disconnectRooms c (st₂.channels.filter (fun q => q.2 != c))
            st₂.rooms).1 := by
        simp [handleDisconnect]
      rw [hrooms] at hp
      exact disconnectRooms_not_mem c _ st₂.rooms p hp
  · intro hrooms hchans
    have hqe : st.queue.eraseP (fun p => p.socketId == c) = st.queue :=
      List.eraseP_of_forall_not (fun a ha => by simp [hq a ha])
    have hch : st.channels.filter (fun p => p.2 != c) = st.channels :=
      List.filter_eq_self.mpr (fun p hp => by simp [hchans p hp])
    have hdr : disconnectRooms c st.channels st.rooms = (st.rooms, []) :=
      disconnectRooms_absent c st.channels st.rooms hrooms
    have hfinal : handleDisconnect st c =
        ({ rooms := st.rooms, queue := st.queue,
           channels := st.channels }, []) := by
      simp [handleDisconnect, hqe, hch, hdr]
    exact hfinal

theorem disconnect_cleanup_witness :
    handleDisconnect stClean "C" = (stClean, []) :=
  (disconnect_cleanup stClean "C" "3+0" "RZ" false (by decide)).2
    (by decide) (by decide)

/-- Claim C4 (original), refuted: from the empty state, two `findMatch`
signals from the same connection "C" with mutually incompatible parameters
leave two live queue entries with the same connection id. -/
theorem queue_duplicate_cex :
    ¬ queueNoDup (runActions initState
      [MMAction.findMatchA "C" "1+0" false "R1",
       MMAction.findMatchA "C" "3+0" false "R2"]) := by
  unfold queueNoDup
  decide

theorem stepAction_queue_nodup (st : ServerState) (a : MMAction)
    (hnd : queueNoDup st) (hok : okAction st a) :
    queueNoDup (stepAction st a) := by
  cases a with
  | findMatchA sid tc ig rid =>
    cases hfind : st.queue.find? (fun e => isCompatible e tc ig) with
    | some w =>
      have h : (stepAction st (MMAction.findMatchA sid tc ig rid)).queue =
          st.queue.eraseP (fun e => isCompatible e tc ig) := by
        simp [stepAction, handleFindMatch, hfind]
      unfold queueNoDup
      rw [h]
      exact nodup_map_eraseP _ _ hnd
    | none =>
      have h : (stepAction st (MMAction.findMatchA sid tc ig rid)).queue =
          st.queue ++
            [{ socketId := sid, timeControl := tc, ignoreTime := ig }] := by
        simp [stepAction, handleFindMatch, hfind]
      have hnotin : sid ∉ st.queue.map (fun e => e.socketId) := by
        intro hmem
        rcases List.mem_map.mp hmem with ⟨e, he, hesid⟩
        exact hok e he hesid
      unfold queueNoDup
      rw [h, List.map_append]
      refine List.Nodup.append hnd (List.nodup_singleton _) ?_
      intro x hx hx'
      rw [List.mem_singleton.mp hx'] at hx
      exact hnotin hx
  | cancelA sid =>
    have h : (stepAction st (MMAction.cancelA sid)).queue =
        st.queue.eraseP (fun p => p.socketId == sid) := by
      simp [stepAction, handleCancelMatchmaking]
    unfold queueNoDup
    rw [h]
    exact nodup_map_eraseP _ _ hnd
  | disconnectA sid =>
    have h : (stepAction st (MMAction.disconnectA sid)).queue =
        st.queue.eraseP (fun p => p.socketId == sid) := by
      simp [stepAction, handleDisconnect]
    unfold queueNoDup
    rw [h]
    exact nodup_map_eraseP _ _ hnd

/-- Claim C4 (amended): after any sequence of findMatch, cancelMatchmaking
and disconnect signals in which no connection issues `findMatch` while it
already holds a queue entry, a queue with pairwise-distinct connection
ids keeps that property — in particular the queue never holds two entries
with the same connection id. -/
theorem queue_nodup_preserved (acts : List MMAction) :
    ∀ st st', queueNoDup st → GoodRun st acts st' → queueNoDup st' := by
  induction acts with
  | nil =>
    intro st st' hnd hrun
    cases hrun
    exact hnd
  | cons a acts ih =>
    intro st st' hnd hrun
    cases hrun with
    | cons _ _ _ _ hok htail =>
      exact ih _ _ (stepAction_queue_nodup st a hnd hok) htail

theorem queue_nodup_preserved_witness :
    queueNoDup (stepAction initState
      (MMAction.findMatchA "C" "5+0" false "R1")) :=
  queue_nodup_preserved [MMAction.findMatchA "C" "5+0" false "R1"]
    initState _ List.nodup_nil
    (GoodRun.cons _ _ _ _ (fun e he => absurd he (List.not_mem_nil e))
      (GoodRun.nil _))

/-- Claim C5 (original), refuted: the generated room id is not checked
against the live room set, so a colliding id makes `rooms.set` replace the
existing room "AB12CD" (its occupants X and Y are lost). -/
theorem room_collision_cex :
    mapGet stCollide.rooms "AB12CD" = some roomXY ∧
    mapGet (handleFindMatch stCollide "Z" "5+0" false "AB12CD").1.rooms
        "AB12CD" =
      some ({ players := ["W", "Z"], white := "W", black := some "Z",
              timeControl := some "5+0" }) ∧
    ({ players := ["W", "Z"], white := "W", black := some "Z",
       timeControl := some "5+0" } : Room) ≠ roomXY := by
  decide

/-- Claim C5 (amended): matched-room creation always preserves pairwise
uniqueness of live room ids — also when the generated id collides with a
live one, since the colliding `rooms.set` overwrites in place — and
whenever the generated id happens to differ from every live room id, which
the generator does not itself guarantee, no existing room is replaced:
every other id maps to exactly the room it mapped to before. -/
theorem matched_room_fresh (st : ServerState) (sid tc rid : String)
    (ig : Bool) (hnd : roomsNodup st) :
    roomsNodup (handleFindMatch st sid tc ig rid).1 ∧
    (mapHas st.rooms rid = false →
      ∀ k, k ≠ rid →
        mapGet (handleFindMatch st sid tc ig rid).1.rooms k =
          mapGet st.rooms k) := by
  cases hfind : st.queue.find? (fun e => isCompatible e tc ig) with
  | none =>
    have h : (handleFindMatch st sid tc ig rid).1.rooms = st.rooms := by
      simp [handleFindMatch, hfind]
    constructor
    · unfold roomsNodup
      rw [h]
      exact hnd
    · intro _ k _
      rw [h]
  | some w =>
    have h : (handleFindMatch st sid tc ig rid).1.rooms =
        mapSet st.rooms rid
          ({ players := [w.socketId, sid], white := w.socketId,
             black := some sid,
             timeControl := some (resolveTimeControl w tc ig) }) := by
      simp [handleFindMatch, hfind]
    constructor
    · unfold roomsNodup
      rw [h]
      cases hhas : mapHas st.rooms rid with
      | true =>
        rw [mapSet_keys_live _ _ _ hhas]
        exact hnd
      | false =>
        rw [mapSet_keys_fresh _ _ _ hhas]
        refine List.Nodup.append hnd (List.nodup_singleton _) ?_
        intro x hx hx'
        rw [List.mem_singleton.mp hx'] at hx
        exact mapHas_false_not_mem st.rooms rid hhas hx
    · intro _ k hk
      rw [h]
      exact mapGet_mapSet_ne st.rooms rid k _ hk

theorem matched_room_fresh_witness :
    roomsNodup (handleFindMatch stScan "B" "3+0" false "RF").1 ∧
    mapGet (handleFindMatch stScan "B" "3+0" false "RF").1.rooms "OTHER" =
      mapGet stScan.rooms "OTHER" :=
  ⟨(matched_room_fresh stScan "B" "3+0" "RF" false
      (by unfold roomsNodup; decide)).1,
   (matched_room_fresh stScan "B" "3+0" "RF" false
      (by unfold roomsNodup; decide)).2 (by decide) "OTHER" (by decide)⟩

/-- Claim C1 (original), refuted: connection "C" occupies no room and is a
member of no channel, yet its `move` relay naming room "ABC123" is
delivered to both occupants A and B of that room rather than dropped. -/
theorem relay_no_validation_cex :
    mapGet stRelay.rooms "ABC123" = some roomAB ∧
    "C" ∉ roomAB.players ∧
    (∀ q ∈ stRelay.channels, q.2 ≠ "C") ∧
    (handleMove stRelay "C" "ABC123" "e2" "e4" "n" "5" "5" "0").2 =
      [("A", Event.opponentMove "e2" "e4" "n" "5" "5" "0"),
       ("B", Event.opponentMove "e2" "e4" "n" "5" "5" "0")] := by
  decide

/-- Claim C1 (amended): each relayed in-game signal (move, gameOver,
rematchRequest, rematchAccept, rematchDecline) changes no state and
delivers its payload to exactly the members of the named room's channel
other than the sender, with no validation that the sender occupies the
room; delivery never reaches a connection outside the named channel, and a
relay naming a channel with no members (e.g. a nonexistent room) delivers
nothing. -/
theorem relay_channel_semantics (st : ServerState)
    (sid roomId src dst mt wt bt ts reason : String) :
    (handleMove st sid roomId src dst mt wt bt ts =
      (st, toChannel st.channels roomId sid
        (Event.opponentMove src dst mt wt bt ts))) ∧
    (handleGameOver st sid roomId reason =
      (st, toChannel st.channels roomId sid (Event.gameOverEv reason))) ∧
    (handleRematchRequest st sid roomId =
      (st, toChannel st.channels roomId sid Event.rematchRequestEv)) ∧
    (handleRematchAccept st sid roomId =
      (st, toChannel st.channels roomId sid Event.rematchAccepted)) ∧
    (handleRematchDecline st sid roomId =
      (st, toChannel st.channels roomId sid Event.rematchDeclined)) ∧
    (∀ ev r ev', (r, ev') ∈ toChannel st.channels roomId sid ev →
      (roomId, r) ∈ st.channels ∧ r ≠ sid ∧ ev' = ev) ∧
    (∀ ev r, (roomId, r) ∈ st.channels → r ≠ sid →
      (r, ev) ∈ toChannel st.channels roomId sid ev) ∧
    (∀ ev, chanMembers st.channels roomId = [] →
      toChannel st.channels roomId sid ev = []) := by
  refine ⟨rfl, rfl, rfl, rfl, rfl, ?_, ?_, ?_⟩
  · intro ev r ev' hmem
    unfold toChannel at hmem
    rcases List.mem_map.mp hmem with ⟨r', hr', heq⟩
    injection heq with h1 h2
    subst h1
    subst h2
    rcases List.mem_filter.mp hr' with ⟨hmem2, hne⟩
    unfold chanMembers at hmem2
    rcases List.mem_map.mp hmem2 with ⟨p, hp, hp2⟩
    rcases List.mem_filter.mp hp with ⟨hpcs, hpch⟩
    have hp1 : p.1 = roomId := by simpa using hpch
    have hpeq : (roomId, r') = p := by
      rw [← hp1, ← hp2]
    exact ⟨hpeq ▸ hpcs, by simpa using hne, rfl⟩
  · intro ev r hmem hne
    exact mem_toChannel st.channels roomId sid r ev hmem hne
  · intro ev h
    unfold toChannel
    rw [h]
    rfl

theorem relay_channel_semantics_witness :
    ("B", Event.rematchRequestEv) ∈
      toChannel stRelay.channels "ABC123" "A" Event.rematchRequestEv ∧
    handleRematchRequest stRelay "A" "ABC123" =
      (stRelay,
       toChannel stRelay.channels "ABC123" "A" Event.rematchRequestEv) :=
  ⟨(relay_channel_semantics stRelay "A" "ABC123" "x" "y" "z" "u" "v" "w"
      "r").2.2.2.2.2.2.1 Event.rematchRequestEv "B" (by decide) (by decide),
   (relay_channel_semantics stRelay "A" "ABC123" "x" "y" "z" "u" "v" "w"
      "r").2.2.1⟩

/-- Claim C10 (original), refuted: connection "C" already holds a waiting
entry compatible with its second request, yet it is matched with the
earlier compatible entry of "A", producing a room occupied by A and C —
not a room holding C twice. -/
theorem self_match_cex :
    ({ socketId := "C", timeControl := "5+0", ignoreTime := false } :
        QueueEntry) ∈ stSelf.queue ∧
    isCompatible
      ({ socketId := "C", timeControl := "5+0", ignoreTime := false })
      "5+0" false = true ∧
    mapGet (handleFindMatch stSelf "C" "5+0" false "RR").1.rooms "RR" =
      some ({ players := ["A", "C"], white := "A", black := some "C",
              timeControl := some "5+0" }) ∧
    (["A", "C"] : List String) ≠ ["C", "C"] := by
  decide

/-- Claim C10 (amended): if a connection that already holds a waiting queue
entry issues a second `findMatch` whose parameters are compatible with its
own entry, and that entry is the earliest compatible entry in the queue,
the connection is matched with itself: the created room's occupant list
holds that connection twice and both roles are assigned to it. -/
theorem self_match_first_fit (st : ServerState) (c tc rid : String)
    (ig : Bool) (l₁ l₂ : List QueueEntry) (e : QueueEntry)
    (hq : st.queue = l₁ ++ e :: l₂) (hc : e.socketId = c)
    (h₁ : ∀ x ∈ l₁, isCompatible x tc ig = false)
    (he : isCompatible e tc ig = true) :
    mapGet (handleFindMatch st c tc ig rid).1.rooms rid =
      some ({ players := [c, c], white := c, black := some c,
              timeControl := some (resolveTimeControl e tc ig) }) ∧
    (handleFindMatch st c tc ig rid).2 =
      [(c, Event.matchFound rid "white" (resolveTimeControl e tc ig)),
       (c, Event.matchFound rid "black" (resolveTimeControl e tc ig))] := by
  have hfind : st.queue.find? (fun x => isCompatible x tc ig) = some e := by
    rw [hq]
    exact find_first_compat l₁ l₂ e tc ig h₁ he
  constructor
  · have h : (handleFindMatch st c tc ig rid).1.rooms =
        mapSet st.rooms rid
          ({ players := [e.socketId, c], white := e.socketId,
             black := some c,
             timeControl := some (resolveTimeControl e tc ig) }) := by
      simp [handleFindMatch, hfind]
    rw [h, hc]
    exact mapGet_mapSet_self _ _ _
  · have h : (handleFindMatch st c tc ig rid).2 =
        [(e.socketId, Event.matchFound rid "white"
            (resolveTimeControl e tc ig)),
         (c, Event.matchFound rid "black"
            (resolveTimeControl e tc ig))] := by
      simp [handleFindMatch, hfind]
    rw [h, hc]

theorem self_match_first_fit_witness :
    mapGet (handleFindMatch stSolo "C" "5+0" false "RS").1.rooms "RS" =
      some ({ players := ["C", "C"], white := "C", black := some "C",
              timeControl := some "5+0" }) := by
  have h := (self_match_first_fit stSolo "C" "5+0" "RS" false [] []
      ({ socketId := "C", timeControl := "5+0", ignoreTime := false })
      rfl rfl (by decide) (by decide)).1
  exact h.trans (by decide)
